/-
  Verification of the RGB core validation VM and its embedded procedure set
  (src/vm/embedded.rs, src/vm/mod.rs) against its natural-language
  specification.

  The embedding models u64 arithmetic as Nat with explicit reduction mod 2^64
  where Rust release-mode wrapping matters, and models the value-arithmetic
  primitives (Pedersen commitments), the assignment/metadata views and the
  `EmbeddedVm` handler slots — repository code which is not part of the given
  sources — from the specification's description of them; each such definition
  carries a doc comment saying so.
-/
import Mathlib

/-- The u64 modulus `2^64`. -/
def U64MOD : Nat := 2 ^ 64

/-- Wrapping u64 addition: the semantics of Rust `+` on `u64` in release builds. -/
def wadd (a b : Nat) : Nat := (a + b) % U64MOD

/-- Wrapping u64 sum of a list (Rust `Iterator::sum::<u64>()` in release builds). -/
def wsum (xs : List Nat) : Nat := xs.foldl wadd 0

/-- Rust `u64::checked_add`: `some` of the sum when it fits in u64, else `none`. -/
def checked_add (a b : Nat) : Option Nat :=
  if a + b < U64MOD then some (a + b) else none

/-- Rust `Iterator::try_fold` over `checked_add`: folds left, stopping at the
first overflowing addition. -/
def try_fold_checked : Nat → List Nat → Option Nat
  | acc, [] => some acc
  | acc, v :: vs =>
    match checked_add acc v with
    | some s => try_fold_checked s vs
    | none => none

/-- Modelled from the spec: `value.rs` (Value Arithmetic Primitives) is not
among the given sources.  A Pedersen commitment `v·G + r·H` over two
independent generators is modelled by the pair of its scalar coordinates;
the commitment-group sum is coordinatewise addition. -/
structure Commitment where
  vG : Nat
  rH : Nat
deriving DecidableEq

/-- Modelled from the spec: deterministic Pedersen commitment `commit(value, blinding)`. -/
def commit (value blinding : Nat) : Commitment := ⟨value, blinding⟩

/-- The distinguished blinding scalar `secp256k1zkp::key::ONE_KEY` (the scalar one). -/
def ONE_KEY : Nat := 1

/-- Sum of a list of commitments in the commitment group. -/
def csum (cs : List Commitment) : Commitment :=
  cs.foldl (fun a c => ⟨a.vG + c.vG, a.rH + c.rH⟩) ⟨0, 0⟩

/-- Modelled from the spec: `verify_commit_sum(lhs, rhs)` is true iff the two
commitment-group sums coincide; empty sums are the identity. -/
def verify_commit_sum (lhs rhs : List Commitment) : Bool :=
  decide (csum lhs = csum rhs)

/-- Revealed value state (`value::Revealed`): plaintext u64 amount plus blinding. -/
structure ValueRevealed where
  value : Nat
  blinding : Nat
deriving DecidableEq

/-- Modelled from the spec: a discrete-finite-field (value) assignment's state,
either revealed or confidential.  The seal dimension of the four mixed
reveal/conceal forms is irrelevant to every view used here, which inspect
state only, so assignments are classified by state revealed-ness. -/
inductive ValueAssignment
  | revealed (r : ValueRevealed)
  | confidential (c : Commitment)
deriving DecidableEq

/-- The `as_revealed_state()` view: `some` of the revealed state, if any. -/
def ValueAssignment.as_revealed_state : ValueAssignment → Option ValueRevealed
  | .revealed r => some r
  | .confidential _ => none

/-- The `to_confidential_state()` view: a revealed state is projected through
`commit`, a confidential one is returned as stored. -/
def ValueAssignment.to_confidential_state : ValueAssignment → Commitment
  | .revealed r => commit r.value r.blinding
  | .confidential c => c

/-- Modelled from the spec: a custom-data assignment's state, revealed or
already confidential. -/
inductive DataAssignment
  | revealed (d : List Nat)
  | confidential (c : List Nat)
deriving DecidableEq

/-- Modelled from the spec: the deterministic confidential projection of
custom-data state (abstract commitment; its only property used anywhere is
determinism). -/
def DataAssignment.to_confidential_state : DataAssignment → List Nat
  | .revealed d => d
  | .confidential c => c

/-- The tagged union of assignment vectors: `Declarative` (rights without
state), `DiscreteFiniteField` (value state) or `CustomData`. -/
inductive AssignmentVec
  | declarative (xs : List Unit)
  | discreteFiniteField (xs : List ValueAssignment)
  | customData (xs : List DataAssignment)
deriving DecidableEq

/-- The variant tag of an assignment vector (`schema::StateType`). -/
inductive StateType
  | declarative
  | discreteFiniteField
  | customData
deriving DecidableEq

/-- `AssignmentVec::state_type()`: the variant tag. -/
def AssignmentVec.state_type : AssignmentVec → StateType
  | .declarative _ => .declarative
  | .discreteFiniteField _ => .discreteFiniteField
  | .customData _ => .customData

/-- `AssignmentVec::len()`: the number of assignments in the vector. -/
def AssignmentVec.len : AssignmentVec → Nat
  | .declarative xs => xs.length
  | .discreteFiniteField xs => xs.length
  | .customData xs => xs.length

/-- Traverse a value-assignment list, failing on the first element whose state
is not revealed; preserves order. -/
def revealed_values : List ValueAssignment → Option (List ValueRevealed)
  | [] => some []
  | a :: rest =>
    match a.as_revealed_state with
    | some r => (revealed_values rest).map (fun vs => r :: vs)
    | none => none

/-- Modelled from the spec: `as_revealed_state_values()` yields the sequence of
revealed plaintext values, failing (`ConfidentialState` at the caller) if any
value element is not revealed; non-value vectors carry no value state. -/
def AssignmentVec.as_revealed_state_values : AssignmentVec → Option (List ValueRevealed)
  | .discreteFiniteField xs => revealed_values xs
  | .declarative _ => some []
  | .customData _ => some []

/-- Modelled from the spec: `to_confidential_state_pedersen()` always succeeds
by projecting revealed value elements through `commit`; non-value vectors
contribute no Pedersen commitments. -/
def AssignmentVec.to_confidential_state_pedersen : AssignmentVec → List Commitment
  | .discreteFiniteField xs => xs.map ValueAssignment.to_confidential_state
  | .declarative _ => []
  | .customData _ => []

/-- `OwnedRights`: the ordered mapping from owned-right type (u16) to
assignment vector, in its canonical inner-list form. -/
abbrev OwnedRights := List (Nat × AssignmentVec)

/-- `OwnedRights::as_inner()`: the ordered sequence of `(type, vector)` pairs. -/
def OwnedRights.as_inner (r : OwnedRights) : List (Nat × AssignmentVec) := r

/-- `OwnedRights::assignments_by_type(t)`: the vector at `t`, or the empty
(default, declarative) vector when `t` is absent. -/
def OwnedRights.assignments_by_type (r : OwnedRights) (t : Nat) : AssignmentVec :=
  match r.lookup t with
  | some v => v
  | none => .declarative []

/-- Public-right types declared by a node (unused by every embedded procedure). -/
abbrev PublicRights := List Nat

/-- Modelled from the spec: one typed metadata field value (`data::Revealed`),
restricted to the two decodings the embedded procedures use. -/
inductive FieldValue
  | u64Val (v : Nat)
  | bytesVal (bs : List Nat)
deriving DecidableEq

/-- `Metadata`: mapping from field type (u16) to a sequence of typed values. -/
abbrev Metadata := List (Nat × List FieldValue)

/-- The sequence of field values stored at field type `t` (empty when absent). -/
def Metadata.field_list (m : Metadata) (t : Nat) : List FieldValue :=
  match m.lookup t with
  | some vs => vs
  | none => []

/-- `Metadata::u64(t)`: the u64-decoded values at field type `t`, in order. -/
def Metadata.u64 (m : Metadata) (t : Nat) : List Nat :=
  (Metadata.field_list m t).filterMap fun fv =>
    match fv with
    | .u64Val v => some v
    | .bytesVal _ => none

/-- `Metadata::bytes(t)`: the byte-string values at field type `t`, in order. -/
def Metadata.bytes (m : Metadata) (t : Nat) : List (List Nat) :=
  (Metadata.field_list m t).filterMap fun fv =>
    match fv with
    | .u64Val _ => none
    | .bytesVal bs => some bs

/-- `FIELD_TYPE_ISSUED_SUPPLY`: reserved field type for issued supply. -/
def FIELD_TYPE_ISSUED_SUPPLY : Nat := 0xA0

/-- `FIELD_TYPE_LOCK_DESCRIPTOR`: reserved field type for proof-of-reserve lock
descriptors. -/
def FIELD_TYPE_LOCK_DESCRIPTOR : Nat := 0xC0

/-- `STATE_TYPE_INFLATION_RIGHT`: reserved owned-right type for inflation rights. -/
def STATE_TYPE_INFLATION_RIGHT : Nat := 0xA0

/-- `STATE_TYPE_OWNERSHIP_RIGHT`: reserved owned-right type for ownership rights. -/
def STATE_TYPE_OWNERSHIP_RIGHT : Nat := 0xA1

/-- `HandlerError`: the closed error enumeration of the embedded procedures,
in declaration order. -/
inductive HandlerError
  | NotImplemented
  | Inflation
  | BrokenSchema
  | NonEqualTypes
  | NonEqualState
  | NonEqualAssignmentCount
  | ConfidentialState
  | ValueOverflow
  | DataEncoding
deriving DecidableEq

/-- The declared discriminant of each `HandlerError` variant (`e as u8`). -/
def HandlerError.toU8 : HandlerError → Nat
  | .NotImplemented => 0
  | .Inflation => 1
  | .BrokenSchema => 2
  | .NonEqualTypes => 3
  | .NonEqualState => 4
  | .NonEqualAssignmentCount => 5
  | .ConfidentialState => 6
  | .ValueOverflow => 7
  | .DataEncoding => 8

/-- Result of one embedded procedure.  `stuck` models the Rust
`unreachable!` panic path in `input_output_value_eq`; every other arm of every
procedure produces `ok` or `err`. -/
inductive ProcResult
  | ok
  | err (e : HandlerError)
  | stuck
deriving DecidableEq

/-- `NodeValidator::fungible_issue` (embedded.rs): sums issued supply from
metadata and the revealed previous/current inflation-right values (any
confidential inflation element fails with `ConfidentialState`), requires
`issued + future = allowed` under Rust release-mode (wrapping) u64 arithmetic,
then requires the Pedersen tally of the current ownership commitments against
the previous ownership commitments with `commit(issued, ONE_KEY)` appended;
either failed check yields `Inflation`. -/
def fungible_issue (meta : Metadata) (prev curr : OwnedRights) : ProcResult :=
  match (prev.assignments_by_type STATE_TYPE_INFLATION_RIGHT).as_revealed_state_values,
        (curr.assignments_by_type STATE_TYPE_INFLATION_RIGHT).as_revealed_state_values with
  | none, _ => .err .ConfidentialState
  | some _, none => .err .ConfidentialState
  | some pvs, some cvs =>
    if wadd (wsum (meta.u64 FIELD_TYPE_ISSUED_SUPPLY)) (wsum (cvs.map ValueRevealed.value))
        = wsum (pvs.map ValueRevealed.value) then
      if verify_commit_sum
          ((curr.assignments_by_type STATE_TYPE_OWNERSHIP_RIGHT).to_confidential_state_pedersen)
          ((prev.assignments_by_type STATE_TYPE_OWNERSHIP_RIGHT).to_confidential_state_pedersen
            ++ [commit (wsum (meta.u64 FIELD_TYPE_ISSUED_SUPPLY)) ONE_KEY]) then
        .ok
      else .err .Inflation
    else .err .Inflation

/-- `NodeValidator::nft_issue`: counts current ownership assignments and
revealed previous/current inflation-right elements; requires
`issued + future = allowed` on counts. -/
def nft_issue (_meta : Metadata) (prev curr : OwnedRights) : ProcResult :=
  match (prev.assignments_by_type STATE_TYPE_INFLATION_RIGHT).as_revealed_state_values,
        (curr.assignments_by_type STATE_TYPE_INFLATION_RIGHT).as_revealed_state_values with
  | none, _ => .err .ConfidentialState
  | some _, none => .err .ConfidentialState
  | some allowed, some future =>
    if (curr.assignments_by_type STATE_TYPE_OWNERSHIP_RIGHT).len + future.length
        = allowed.length then
      .ok
    else .err .Inflation

/-- `NodeValidator::proof_of_burn`: stubbed, always `NotImplemented`. -/
def proof_of_burn (_meta : Metadata) : ProcResult := .err .NotImplemented

/-- `NodeValidator::proof_of_reserve`: requires a first lock-descriptor byte
field (`BrokenSchema` otherwise), then returns `NotImplemented`. -/
def proof_of_reserve (meta : Metadata) : ProcResult :=
  match (meta.bytes FIELD_TYPE_LOCK_DESCRIPTOR).head? with
  | none => .err .BrokenSchema
  | some _ => .err .NotImplemented

/-- The per-position comparison of two same-type discrete-finite-field
assignment lists inside `input_output_value_eq`: when both states are revealed
their values must be equal (`NonEqualState`), otherwise the confidential
projections must be equal (`ConfidentialState`). -/
def value_pairs_eq : List ValueAssignment → List ValueAssignment → ProcResult
  | [], _ => .ok
  | _, [] => .ok
  | p :: ps, c :: cs =>
    match p.as_revealed_state, c.as_revealed_state with
    | some pr, some cr =>
      if pr.value = cr.value then value_pairs_eq ps cs else .err .NonEqualState
    | _, _ =>
      if p.to_confidential_state = c.to_confidential_state then value_pairs_eq ps cs
      else .err .ConfidentialState

/-- The per-position comparison of two same-type custom-data assignment lists
inside `input_output_value_eq`: confidential projections must be equal
(`NonEqualState`). -/
def data_pairs_eq : List DataAssignment → List DataAssignment → ProcResult
  | [], _ => .ok
  | _, [] => .ok
  | p :: ps, c :: cs =>
    if p.to_confidential_state = c.to_confidential_state then data_pairs_eq ps cs
    else .err .NonEqualState

/-- The per-type match of `input_output_value_eq` on a pair of same-state-type
assignment vectors; the cross-variant arm is the Rust `unreachable!` panic,
modelled as `stuck`. -/
def value_eq_step : AssignmentVec → AssignmentVec → ProcResult
  | .declarative _, .declarative _ => .ok
  | .discreteFiniteField p, .discreteFiniteField c => value_pairs_eq p c
  | .customData p, .customData c => data_pairs_eq p c
  | _, _ => .stuck

/-- The zip loop of `input_output_value_eq` over the two canonical inner lists. -/
def input_output_value_eq_loop :
    List (Nat × AssignmentVec) → List (Nat × AssignmentVec) → ProcResult
  | [], _ => .ok
  | _, [] => .ok
  | (pt, pa) :: ps, (ct, ca) :: cs =>
    if pt = ct then
      if pa.state_type = ca.state_type then
        if pa.len = ca.len then
          match value_eq_step pa ca with
          | .ok => input_output_value_eq_loop ps cs
          | r => r
        else .err .NonEqualAssignmentCount
      else .err .BrokenSchema
    else .err .NonEqualTypes

/-- `NodeValidator::input_output_value_eq` (the `RightsSplit` procedure):
structural checks, then per-position state equivalence. -/
def input_output_value_eq (prev curr : OwnedRights) : ProcResult :=
  if prev.as_inner.length = curr.as_inner.length then
    input_output_value_eq_loop prev.as_inner curr.as_inner
  else .err .NonEqualTypes

/-- The zip loop of `input_output_count_eq` over the two canonical inner lists. -/
def input_output_count_eq_loop :
    List (Nat × AssignmentVec) → List (Nat × AssignmentVec) → ProcResult
  | [], _ => .ok
  | _, [] => .ok
  | (pt, pa) :: ps, (ct, ca) :: cs =>
    if pt = ct then
      if pa.len = ca.len then input_output_count_eq_loop ps cs
      else .err .NonEqualAssignmentCount
    else .err .NonEqualTypes

/-- `NodeValidator::input_output_count_eq` (the `IdentityTransfer` procedure):
equal map lengths, then pairwise equal types and assignment counts. -/
def input_output_count_eq (prev curr : OwnedRights) : ProcResult :=
  if prev.as_inner.length = curr.as_inner.length then
    input_output_count_eq_loop prev.as_inner curr.as_inner
  else .err .NonEqualTypes

/-- `AssignmentValidator::validate_pedersen_sum` (the `FungibleNoInflation`
procedure): the Pedersen sums of previous and current state must tally. -/
def validate_pedersen_sum (previous_state current_state : AssignmentVec) : ProcResult :=
  if verify_commit_sum previous_state.to_confidential_state_pedersen
      current_state.to_confidential_state_pedersen then
    .ok
  else .err .Inflation

/-- `AssignmentValidator::validate_no_overflow` (the `NoOverflow` procedure):
projects the current state through `as_revealed_state_values`
(`ConfidentialState` on failure) and folds the u64 values with checked
addition from 0, `ValueOverflow` on any wrap. -/
def validate_no_overflow (current_state : AssignmentVec) : ProcResult :=
  match current_state.as_revealed_state_values with
  | none => .err .ConfidentialState
  | some vs =>
    match try_fold_checked 0 (vs.map ValueRevealed.value) with
    | some _ => .ok
    | none => .err .ValueOverflow

/-- The `AssignmentValidator` family of embedded entry points. -/
inductive AssignmentValidator
  | FungibleNoInflation
  | NoOverflow
deriving DecidableEq

/-- The protocol-fixed numeric id of each `AssignmentValidator` variant
(its `repr(u32)` discriminant). -/
def AssignmentValidator.toEntryPoint : AssignmentValidator → Nat
  | .FungibleNoInflation => 0x01
  | .NoOverflow => 0x02

/-- `AssignmentValidator::from_entry_point`: decodes a 32-bit entry-point id. -/
def AssignmentValidator.from_entry_point (entry_point : Nat) : Option AssignmentValidator :=
  if entry_point = AssignmentValidator.FungibleNoInflation.toEntryPoint then
    some .FungibleNoInflation
  else if entry_point = AssignmentValidator.NoOverflow.toEntryPoint then
    some .NoOverflow
  else none

/-- The `NodeValidator` family of embedded entry points. -/
inductive NodeValidator
  | FungibleIssue
  | IdentityTransfer
  | NftIssue
  | ProofOfBurn
  | ProofOfReserve
  | RightsSplit
deriving DecidableEq

/-- The protocol-fixed numeric id of each `NodeValidator` variant. -/
def NodeValidator.toEntryPoint : NodeValidator → Nat
  | .FungibleIssue => 0x02
  | .IdentityTransfer => 0x11
  | .NftIssue => 0x12
  | .ProofOfBurn => 0x20
  | .ProofOfReserve => 0x21
  | .RightsSplit => 0x30

/-- `NodeValidator::from_entry_point`: decodes a 32-bit entry-point id. -/
def NodeValidator.from_entry_point (entry_point : Nat) : Option NodeValidator :=
  if entry_point = NodeValidator.FungibleIssue.toEntryPoint then some .FungibleIssue
  else if entry_point = NodeValidator.IdentityTransfer.toEntryPoint then some .IdentityTransfer
  else if entry_point = NodeValidator.NftIssue.toEntryPoint then some .NftIssue
  else if entry_point = NodeValidator.ProofOfBurn.toEntryPoint then some .ProofOfBurn
  else if entry_point = NodeValidator.ProofOfReserve.toEntryPoint then some .ProofOfReserve
  else if entry_point = NodeValidator.RightsSplit.toEntryPoint then some .RightsSplit
  else none

/-- The `TransitionConstructor` family of embedded entry points. -/
inductive TransitionConstructor
  | OneToOne
  | Aggregate
deriving DecidableEq

/-- The protocol-fixed numeric id of each `TransitionConstructor` variant. -/
def TransitionConstructor.toEntryPoint : TransitionConstructor → Nat
  | .OneToOne => 0x80
  | .Aggregate => 0x81

/-- `TransitionConstructor::from_entry_point`: decodes a 32-bit entry-point id. -/
def TransitionConstructor.from_entry_point (entry_point : Nat) : Option TransitionConstructor :=
  if entry_point = TransitionConstructor.OneToOne.toEntryPoint then some .OneToOne
  else if entry_point = TransitionConstructor.Aggregate.toEntryPoint then some .Aggregate
  else none

/-- The three node kinds (`NodeSubtype`). -/
inductive NodeSubtype
  | genesis
  | stateTransition (t : Nat)
  | stateExtension (t : Nat)
deriving DecidableEq

/-- `NodeValidator::validate`: dispatch from a node-validator variant to its
procedure (node subtype and public rights are received but unused, as in the
source). -/
def NodeValidator.validate (v : NodeValidator) (_node_subtype : NodeSubtype)
    (previous_owned_rights current_owned_rights : OwnedRights)
    (_previous_public_rights _current_public_rights : PublicRights)
    (current_meta : Metadata) : ProcResult :=
  match v with
  | .FungibleIssue => fungible_issue current_meta previous_owned_rights current_owned_rights
  | .IdentityTransfer => input_output_count_eq previous_owned_rights current_owned_rights
  | .NftIssue => nft_issue current_meta previous_owned_rights current_owned_rights
  | .ProofOfBurn => proof_of_burn current_meta
  | .ProofOfReserve => proof_of_reserve current_meta
  | .RightsSplit => input_output_value_eq previous_owned_rights current_owned_rights

/-- `validation::Failure`, restricted to the one variant the VM dispatch
produces: `ScriptFailure(node_id, code)`. -/
inductive Failure
  | scriptFailure (node_id : Nat) (code : Nat)
deriving DecidableEq

/-- Modelled from the spec: the per-subtype handler slots referenced by
`EmbeddedVm::validate_node` (`validate_genesis_handler` and friends) are not
defined on the struct in the given sources; the spec records them as the
schema-wired per-subtype handler mapping, a missing handler meaning "no
validation required". -/
structure EmbeddedVm where
  validate_genesis_handler : Option NodeValidator
  validate_transition_handler : Option NodeValidator
  validate_extension_handler : Option NodeValidator

/-- Outcome of `EmbeddedVm::validate_node`; `stuck` propagates a panic of the
underlying procedure. -/
inductive VmOutcome
  | ok
  | failure (f : Failure)
  | stuck
deriving DecidableEq

/-- The handler slot selected for a node subtype in `validate_node`. -/
def EmbeddedVm.handlerFor (vm : EmbeddedVm) : NodeSubtype → Option NodeValidator
  | .genesis => vm.validate_genesis_handler
  | .stateTransition _ => vm.validate_transition_handler
  | .stateExtension _ => vm.validate_extension_handler

/-- `EmbeddedVm::validate_node`: a missing handler validates to success; a
handler error `e` is mapped to `Failure::ScriptFailure(node_id, e as u8)`. -/
def EmbeddedVm.validate_node (vm : EmbeddedVm) (node_id : Nat) (node_subtype : NodeSubtype)
    (previous_owned_rights current_owned_rights : OwnedRights)
    (previous_public_rights current_public_rights : PublicRights)
    (current_meta : Metadata) : VmOutcome :=
  match vm.handlerFor node_subtype with
  | none => .ok
  | some h =>
    match h.validate node_subtype previous_owned_rights current_owned_rights
        previous_public_rights current_public_rights current_meta with
    | .ok => .ok
    | .err e => .failure (.scriptFailure node_id e.toU8)
    | .stuck => .stuck

/-- A wrapping left fold of u64 additions equals the plain sum whenever the
plain total fits in u64. -/
theorem foldl_wadd_eq (l : List Nat) :
    ∀ acc, acc + l.sum < U64MOD → l.foldl wadd acc = acc + l.sum := by
  induction l with
  | nil => intro acc h; simp
  | cons v t ih =>
    intro acc h
    have hsum : (v :: t).sum = v + t.sum := by simp
    have hv : acc + v < U64MOD := by
      have := List.sum_cons (a := v) (l := t)
      omega
    have hw : wadd acc v = acc + v := by
      unfold wadd
      exact Nat.mod_eq_of_lt hv
    have ht : (acc + v) + t.sum < U64MOD := by
      have := List.sum_cons (a := v) (l := t)
      omega
    calc (v :: t).foldl wadd acc = t.foldl wadd (wadd acc v) := by rfl
      _ = t.foldl wadd (acc + v) := by rw [hw]
      _ = (acc + v) + t.sum := ih (acc + v) ht
      _ = acc + (v :: t).sum := by rw [hsum]; omega

/-- `wsum` equals the plain sum whenever the total fits in u64. -/
theorem wsum_eq_sum (l : List Nat) (h : l.sum < U64MOD) : wsum l = l.sum := by
  have := foldl_wadd_eq l 0 (by omega)
  simpa [wsum] using this

/-- A checked fold succeeds and returns the plain sum when the total fits. -/
theorem try_fold_checked_some (l : List Nat) :
    ∀ acc, acc + l.sum < U64MOD → try_fold_checked acc l = some (acc + l.sum) := by
  induction l with
  | nil => intro acc h; simp [try_fold_checked]
  | cons v t ih =>
    intro acc h
    have hs : (v :: t).sum = v + t.sum := by simp
    have hv : acc + v < U64MOD := by omega
    have ht : (acc + v) + t.sum < U64MOD := by omega
    simp only [try_fold_checked, checked_add, if_pos hv]
    rw [ih (acc + v) ht]
    congr 1
    omega

/-- A checked fold from an in-range accumulator fails as soon as some initial
segment of the remaining values pushes the running total past u64. -/
theorem try_fold_checked_none (l : List Nat) :
    ∀ acc, acc < U64MOD → (∃ k, U64MOD ≤ acc + (l.take k).sum) →
      try_fold_checked acc l = none := by
  induction l with
  | nil =>
    intro acc hacc ⟨k, hk⟩
    exfalso
    simp at hk
    omega
  | cons v t ih =>
    intro acc hacc ⟨k, hk⟩
    by_cases hv : acc + v < U64MOD
    · simp only [try_fold_checked, checked_add, if_pos hv]
      apply ih (acc + v) hv
      match k with
      | 0 => exfalso; simp at hk; omega
      | k' + 1 =>
        refine ⟨k', ?_⟩
        have : ((v :: t).take (k' + 1)).sum = v + (t.take k').sum := by simp
        omega
    · simp only [try_fold_checked, checked_add, if_neg hv]

/-- `revealed_values` fails exactly when some element's state is not revealed. -/
theorem revealed_values_none_iff (xs : List ValueAssignment) :
    revealed_values xs = none ↔ ∃ a ∈ xs, a.as_revealed_state = none := by
  induction xs with
  | nil => simp [revealed_values]
  | cons a rest ih =>
    cases h : a.as_revealed_state with
    | none =>
      simp only [revealed_values, h]
      constructor
      · intro _; exact ⟨a, by simp, h⟩
      · intro _; trivial
    | some r =>
      simp only [revealed_values, h]
      constructor
      · intro hm
        rcases Option.map_eq_none'.mp hm with hn
        rcases ih.mp hn with ⟨b, hb, hbn⟩
        exact ⟨b, by simp [hb], hbn⟩
      · intro ⟨b, hb, hbn⟩
        rcases List.mem_cons.mp hb with rfl | hb'
        · rw [h] at hbn; cases hbn
        · rw [Option.map_eq_none']
          exact ih.mpr ⟨b, hb', hbn⟩

/-- The count-comparison loop succeeds exactly when every zipped pair agrees on
type and assignment count. -/
theorem count_loop_ok_iff :
    ∀ ps cs, input_output_count_eq_loop ps cs = .ok ↔
      ∀ x ∈ ps.zip cs, x.1.1 = x.2.1 ∧ x.1.2.len = x.2.2.len := by
  intro ps
  induction ps with
  | nil => intro cs; simp [input_output_count_eq_loop]
  | cons p ps ih =>
    intro cs
    cases cs with
    | nil => simp [input_output_count_eq_loop]
    | cons c cs =>
      obtain ⟨pt, pa⟩ := p
      obtain ⟨ct, ca⟩ := c
      by_cases hpt : pt = ct
      · by_cases hlen : pa.len = ca.len
        · simp [input_output_count_eq_loop, hpt, hlen, ih cs]
        · simp [input_output_count_eq_loop, hpt, hlen]
      · simp [input_output_count_eq_loop, hpt]

/-- The count-comparison loop reports `NonEqualTypes` at the first mismatching
position when that mismatch is a type mismatch. -/
theorem count_loop_type_err :
    ∀ (f1 f2 : List (Nat × AssignmentVec)), f1.length = f2.length →
      (∀ x ∈ f1.zip f2, x.1.1 = x.2.1 ∧ x.1.2.len = x.2.2.len) →
      ∀ (pt ct : Nat) (pa ca : AssignmentVec) r1 r2, pt ≠ ct →
        input_output_count_eq_loop (f1 ++ (pt, pa) :: r1) (f2 ++ (ct, ca) :: r2)
          = .err .NonEqualTypes := by
  intro f1
  induction f1 with
  | nil =>
    intro f2 hlen _ pt ct pa ca r1 r2 hne
    have : f2 = [] := List.length_eq_zero.mp hlen.symm
    subst this
    simp [input_output_count_eq_loop, hne]
  | cons x f1 ih =>
    intro f2 hlen hagree pt ct pa ca r1 r2 hne
    cases f2 with
    | nil => simp at hlen
    | cons y f2 =>
      obtain ⟨xt, xa⟩ := x
      obtain ⟨yt, ya⟩ := y
      have hhead := hagree ((xt, xa), (yt, ya)) (by simp)
      have htail : ∀ x ∈ f1.zip f2, x.1.1 = x.2.1 ∧ x.1.2.len = x.2.2.len := by
        intro z hz
        exact hagree z (by simp [hz])
      have hlen' : f1.length = f2.length := by simpa using hlen
      simp only [List.cons_append, input_output_count_eq_loop,
        if_pos hhead.1, if_pos hhead.2]
      exact ih f2 hlen' htail pt ct pa ca r1 r2 hne

/-- The count-comparison loop reports `NonEqualAssignmentCount` at the first
mismatching position when that mismatch is a count mismatch at a matching type. -/
theorem count_loop_count_err :
    ∀ (f1 f2 : List (Nat × AssignmentVec)), f1.length = f2.length →
      (∀ x ∈ f1.zip f2, x.1.1 = x.2.1 ∧ x.1.2.len = x.2.2.len) →
      ∀ (t : Nat) (pa ca : AssignmentVec) r1 r2, pa.len ≠ ca.len →
        input_output_count_eq_loop (f1 ++ (t, pa) :: r1) (f2 ++ (t, ca) :: r2)
          = .err .NonEqualAssignmentCount := by
  intro f1
  induction f1 with
  | nil =>
    intro f2 hlen _ t pa ca r1 r2 hne
    have : f2 = [] := List.length_eq_zero.mp hlen.symm
    subst this
    simp [input_output_count_eq_loop, hne]
  | cons x f1 ih =>
    intro f2 hlen hagree t pa ca r1 r2 hne
    cases f2 with
    | nil => simp at hlen
    | cons y f2 =>
      obtain ⟨xt, xa⟩ := x
      obtain ⟨yt, ya⟩ := y
      have hhead := hagree ((xt, xa), (yt, ya)) (by simp)
      have htail : ∀ x ∈ f1.zip f2, x.1.1 = x.2.1 ∧ x.1.2.len = x.2.2.len := by
        intro z hz
        exact hagree z (by simp [hz])
      have hlen' : f1.length = f2.length := by simpa using hlen
      simp only [List.cons_append, input_output_count_eq_loop,
        if_pos hhead.1, if_pos hhead.2]
      exact ih f2 hlen' htail t pa ca r1 r2 hne

/-- The value-pair comparison never reaches a panic. -/
theorem value_pairs_eq_ne_stuck :
    ∀ ps cs, value_pairs_eq ps cs ≠ .stuck := by
  intro ps
  induction ps with
  | nil => intro cs; simp [value_pairs_eq]
  | cons p ps ih =>
    intro cs
    cases cs with
    | nil => simp [value_pairs_eq]
    | cons c cs =>
      cases hp : p.as_revealed_state with
      | some pr =>
        cases hc : c.as_revealed_state with
        | some cr =>
          simp only [value_pairs_eq, hp, hc]
          by_cases hv : pr.value = cr.value
          · simpa [hv] using ih cs
          · simp [hv]
        | none =>
          simp only [value_pairs_eq, hp, hc]
          by_cases hcc : p.to_confidential_state = c.to_confidential_state
          · simpa [hcc] using ih cs
          · simp [hcc]
      | none =>
        simp only [value_pairs_eq, hp]
        by_cases hcc : p.to_confidential_state = c.to_confidential_state
        · simpa [hcc] using ih cs
        · simp [hcc]

/-- The data-pair comparison never reaches a panic. -/
theorem data_pairs_eq_ne_stuck :
    ∀ ps cs, data_pairs_eq ps cs ≠ .stuck := by
  intro ps
  induction ps with
  | nil => intro cs; simp [data_pairs_eq]
  | cons p ps ih =>
    intro cs
    cases cs with
    | nil => simp [data_pairs_eq]
    | cons c cs =>
      simp only [data_pairs_eq]
      by_cases hcc : p.to_confidential_state = c.to_confidential_state
      · simpa [hcc] using ih cs
      · simp [hcc]

/-- On two vectors of the same state type, the per-type match never takes the
cross-variant (panic) arm. -/
theorem value_eq_step_ne_stuck (pa ca : AssignmentVec)
    (h : pa.state_type = ca.state_type) : value_eq_step pa ca ≠ .stuck := by
  cases pa with
  | declarative xs =>
    cases ca with
    | declarative ys => simp [value_eq_step]
    | discreteFiniteField ys => simp [AssignmentVec.state_type] at h
    | customData ys => simp [AssignmentVec.state_type] at h
  | discreteFiniteField xs =>
    cases ca with
    | declarative ys => simp [AssignmentVec.state_type] at h
    | discreteFiniteField ys =>
      simpa [value_eq_step] using value_pairs_eq_ne_stuck xs ys
    | customData ys => simp [AssignmentVec.state_type] at h
  | customData xs =>
    cases ca with
    | declarative ys => simp [AssignmentVec.state_type] at h
    | discreteFiniteField ys => simp [AssignmentVec.state_type] at h
    | customData ys =>
      simpa [value_eq_step] using data_pairs_eq_ne_stuck xs ys

/-- The value-comparison loop never reaches a panic. -/
theorem value_loop_ne_stuck :
    ∀ ps cs, input_output_value_eq_loop ps cs ≠ .stuck := by
  intro ps
  induction ps with
  | nil => intro cs; simp [input_output_value_eq_loop]
  | cons p ps ih =>
    intro cs
    cases cs with
    | nil => simp [input_output_value_eq_loop]
    | cons c cs =>
      obtain ⟨pt, pa⟩ := p
      obtain ⟨ct, ca⟩ := c
      by_cases hpt : pt = ct
      · by_cases hst : pa.state_type = ca.state_type
        · by_cases hlen : pa.len = ca.len
          · simp only [input_output_value_eq_loop, if_pos hpt, if_pos hst, if_pos hlen]
            cases hs : value_eq_step pa ca with
            | ok => simpa using ih cs
            | err e => simp
            | stuck => exact absurd hs (value_eq_step_ne_stuck pa ca hst)
          · simp [input_output_value_eq_loop, hpt, hst, hlen]
        · simp [input_output_value_eq_loop, hpt, hst]
      · simp [input_output_value_eq_loop, hpt]

/-- C7: for each of the three embedded procedure families, `from_entry_point`
is a left inverse of the numeric id assignment — every variant decodes from
its own id, every 32-bit id outside the family decodes to `none` — and the
ids are exactly the registry table values 0x01, 0x02; 0x02, 0x11, 0x12, 0x20,
0x21, 0x30; 0x80, 0x81. -/
theorem entry_point_round_trip :
    (∀ v : AssignmentValidator, AssignmentValidator.from_entry_point v.toEntryPoint = some v) ∧
    (∀ v : NodeValidator, NodeValidator.from_entry_point v.toEntryPoint = some v) ∧
    (∀ v : TransitionConstructor,
      TransitionConstructor.from_entry_point v.toEntryPoint = some v) ∧
    (∀ n : Nat, n < 2 ^ 32 → (∀ v : AssignmentValidator, n ≠ v.toEntryPoint) →
      AssignmentValidator.from_entry_point n = none) ∧
    (∀ n : Nat, n < 2 ^ 32 → (∀ v : NodeValidator, n ≠ v.toEntryPoint) →
      NodeValidator.from_entry_point n = none) ∧
    (∀ n : Nat, n < 2 ^ 32 → (∀ v : TransitionConstructor, n ≠ v.toEntryPoint) →
      TransitionConstructor.from_entry_point n = none) ∧
    (AssignmentValidator.toEntryPoint .FungibleNoInflation = 0x01 ∧
      AssignmentValidator.toEntryPoint .NoOverflow = 0x02) ∧
    (NodeValidator.toEntryPoint .FungibleIssue = 0x02 ∧
      NodeValidator.toEntryPoint .IdentityTransfer = 0x11 ∧
      NodeValidator.toEntryPoint .NftIssue = 0x12 ∧
      NodeValidator.toEntryPoint .ProofOfBurn = 0x20 ∧
      NodeValidator.toEntryPoint .ProofOfReserve = 0x21 ∧
      NodeValidator.toEntryPoint .RightsSplit = 0x30) ∧
    (TransitionConstructor.toEntryPoint .OneToOne = 0x80 ∧
      TransitionConstructor.toEntryPoint .Aggregate = 0x81) := by
  refine ⟨?_, ?_, ?_, ?_, ?_, ?_, ?_, ?_, ?_⟩
  · intro v; cases v <;> decide
  · intro v; cases v <;> decide
  · intro v; cases v <;> decide
  · intro n _ h
    simp [AssignmentValidator.from_entry_point, h .FungibleNoInflation, h .NoOverflow]
  · intro n _ h
    simp [NodeValidator.from_entry_point, h .FungibleIssue, h .IdentityTransfer,
      h .NftIssue, h .ProofOfBurn, h .ProofOfReserve, h .RightsSplit]
  · intro n _ h
    simp [TransitionConstructor.from_entry_point, h .OneToOne, h .Aggregate]
  · exact ⟨rfl, rfl⟩
  · exact ⟨rfl, rfl, rfl, rfl, rfl, rfl⟩
  · exact ⟨rfl, rfl⟩

/-- C7 witness: the registry rejects concrete unassigned ids in each family. -/
theorem entry_point_round_trip_witness :
    AssignmentValidator.from_entry_point 0x03 = none ∧
    NodeValidator.from_entry_point 0x31 = none ∧
    TransitionConstructor.from_entry_point 0x82 = none := by
  refine ⟨?_, ?_, ?_⟩
  · exact entry_point_round_trip.2.2.2.1 0x03 (by decide) (fun v => by cases v <;> decide)
  · exact entry_point_round_trip.2.2.2.2.1 0x31 (by decide) (fun v => by cases v <;> decide)
  · exact entry_point_round_trip.2.2.2.2.2.1 0x82 (by decide)
      (fun v => by cases v <;> decide)

/-- C8: `proof_of_burn` returns `NotImplemented` on every input;
`proof_of_reserve` never succeeds — it returns `BrokenSchema` exactly when the
lock-descriptor byte field is absent or empty, and `NotImplemented` otherwise. -/
theorem proof_stubs_spec :
    (∀ meta : Metadata, proof_of_burn meta = .err .NotImplemented) ∧
    (∀ meta : Metadata, proof_of_reserve meta ≠ .ok) ∧
    (∀ meta : Metadata, meta.bytes FIELD_TYPE_LOCK_DESCRIPTOR = [] →
      proof_of_reserve meta = .err .BrokenSchema) ∧
    (∀ meta : Metadata, meta.bytes FIELD_TYPE_LOCK_DESCRIPTOR ≠ [] →
      proof_of_reserve meta = .err .NotImplemented) := by
  refine ⟨fun _ => rfl, ?_, ?_, ?_⟩
  · intro meta
    cases hb : (meta.bytes FIELD_TYPE_LOCK_DESCRIPTOR).head? with
    | none => simp [proof_of_reserve, hb]
    | some x => simp [proof_of_reserve, hb]
  · intro meta h
    simp [proof_of_reserve, h]
  · intro meta h
    cases hb : meta.bytes FIELD_TYPE_LOCK_DESCRIPTOR with
    | nil => exact absurd hb h
    | cons x xs => simp [proof_of_reserve, hb]

/-- C8 witness: metadata without a lock descriptor is `BrokenSchema`; metadata
with one is `NotImplemented`. -/
theorem proof_stubs_spec_witness :
    proof_of_reserve ([] : Metadata) = .err .BrokenSchema ∧
    proof_of_reserve [(FIELD_TYPE_LOCK_DESCRIPTOR, [FieldValue.bytesVal [1]])]
      = .err .NotImplemented :=
  ⟨proof_stubs_spec.2.2.1 [] rfl, proof_stubs_spec.2.2.2 _ (by decide)⟩

/-- C6: `validate_node` succeeds when no handler is registered for the node's
subtype; a registered handler's error `e` surfaces as
`Failure::ScriptFailure(node_id, e as u8)` with the declared discriminant; a
successful handler yields success. -/
theorem validate_node_spec (vm : EmbeddedVm) (node_id : Nat) (st : NodeSubtype)
    (prev curr : OwnedRights) (pp cp : PublicRights) (meta : Metadata) :
    (vm.handlerFor st = none →
      vm.validate_node node_id st prev curr pp cp meta = .ok) ∧
    (∀ h e, vm.handlerFor st = some h →
      h.validate st prev curr pp cp meta = .err e →
      vm.validate_node node_id st prev curr pp cp meta
        = .failure (.scriptFailure node_id e.toU8)) ∧
    (∀ h, vm.handlerFor st = some h →
      h.validate st prev curr pp cp meta = .ok →
      vm.validate_node node_id st prev curr pp cp meta = .ok) := by
  refine ⟨?_, ?_, ?_⟩
  · intro hn
    simp only [EmbeddedVm.validate_node, hn]
  · intro h e hh he
    simp only [EmbeddedVm.validate_node, hh, he]
  · intro h hh hok
    simp only [EmbeddedVm.validate_node, hh, hok]

/-- C6 witness: a genesis handler error is mapped to its discriminant byte, and
a subtype with no registered handler validates to success. -/
theorem validate_node_spec_witness :
    EmbeddedVm.validate_node ⟨some .ProofOfBurn, none, none⟩ 7 .genesis [] [] [] [] []
      = .failure (.scriptFailure 7 0) ∧
    EmbeddedVm.validate_node ⟨some .ProofOfBurn, none, none⟩ 7 (.stateTransition 0) [] [] [] [] []
      = .ok := by
  constructor
  · exact (validate_node_spec ⟨some .ProofOfBurn, none, none⟩ 7 .genesis
      [] [] [] [] []).2.1 .ProofOfBurn .NotImplemented rfl rfl
  · exact (validate_node_spec ⟨some .ProofOfBurn, none, none⟩ 7 (.stateTransition 0)
      [] [] [] [] []).1 rfl

/-- C4: `input_output_value_eq` (the `RightsSplit` procedure) is total — it
never reaches the cross-variant panic arm on any input, because the preceding
`state_type` check already reports `BrokenSchema` for any pair of same-type
assignment vectors whose variant tags differ. -/
theorem rights_split_total (prev curr : OwnedRights) :
    input_output_value_eq prev curr ≠ .stuck ∧
    (∀ (t : Nat) (pa ca : AssignmentVec), pa.state_type ≠ ca.state_type →
      input_output_value_eq [(t, pa)] [(t, ca)] = .err .BrokenSchema) := by
  constructor
  · unfold input_output_value_eq
    by_cases h : prev.as_inner.length = curr.as_inner.length
    · simp only [if_pos h]
      exact value_loop_ne_stuck _ _
    · simp [if_neg h]
  · intro t pa ca hst
    simp [input_output_value_eq, OwnedRights.as_inner, input_output_value_eq_loop, hst]

/-- C4 witness: a declarative/value cross-variant pair at one right type is
reported as `BrokenSchema`, not a panic. -/
theorem rights_split_total_witness :
    input_output_value_eq [(1, .declarative [])] [(1, .discreteFiniteField [])]
      = .err .BrokenSchema :=
  (rights_split_total [] []).2 1 (.declarative []) (.discreteFiniteField []) (by decide)

/-- C1: evaluation of `fungible_issue` at a wrapping input.  With issued supply
`u64::MAX`, no previous inflation rights (`allowed = 0`) and current inflation
`1`, the release-mode wrapping addition makes `issued + future = 0 = allowed`,
the Pedersen tally passes, and the procedure accepts — it does not perform
checked addition and never returns `ValueOverflow`, contradicting the claim. -/
theorem fungible_issue_unchecked_overflow :
    fungible_issue
        [(FIELD_TYPE_ISSUED_SUPPLY, [FieldValue.u64Val (2 ^ 64 - 1)])]
        []
        [(STATE_TYPE_INFLATION_RIGHT, .discreteFiniteField [.revealed ⟨1, 5⟩]),
         (STATE_TYPE_OWNERSHIP_RIGHT, .discreteFiniteField [.revealed ⟨2 ^ 64 - 1, 1⟩])]
      = .ok ∧
    fungible_issue
        [(FIELD_TYPE_ISSUED_SUPPLY, [FieldValue.u64Val (2 ^ 64 - 1)])]
        []
        [(STATE_TYPE_INFLATION_RIGHT, .discreteFiniteField [.revealed ⟨1, 5⟩]),
         (STATE_TYPE_OWNERSHIP_RIGHT, .discreteFiniteField [.revealed ⟨2 ^ 64 - 1, 1⟩])]
      ≠ .err .ValueOverflow := by
  constructor
  · decide
  · decide

/-- C10 counterexample: on empty metadata and empty owned-rights maps,
`fungible_issue` returns `Inflation`, not success — the appended
`commit(0, ONE_KEY)` virtual input has a nonzero blinding scalar, so the
Pedersen tally of the empty output sum against it fails. -/
theorem fungible_issue_empty_cex :
    fungible_issue ([] : Metadata) ([] : OwnedRights) ([] : OwnedRights) = .err .Inflation ∧
    fungible_issue ([] : Metadata) ([] : OwnedRights) ([] : OwnedRights) ≠ .ok := by
  constructor
  · decide
  · decide

/-- C5 counterexample: with previous types `[1, 2]` and current types `[1, 3]`
— so the type sequences differ — but an assignment-count mismatch at the
earlier, type-matching position, `input_output_count_eq` returns
`NonEqualAssignmentCount`, not the `NonEqualTypes` the claim requires for any
input with differing type sequences. -/
theorem identity_transfer_error_priority_cex :
    input_output_count_eq
        [(1, AssignmentVec.declarative [()]), (2, AssignmentVec.declarative [])]
        [(1, AssignmentVec.declarative []), (3, AssignmentVec.declarative [])]
      = .err .NonEqualAssignmentCount ∧
    List.map Prod.fst
        [((1 : Nat), AssignmentVec.declarative [()]), (2, AssignmentVec.declarative [])] ≠
      List.map Prod.fst
        [((1 : Nat), AssignmentVec.declarative []), (3, AssignmentVec.declarative [])] := by
  constructor
  · decide
  · decide

/-- C5 (amended): `input_output_count_eq` succeeds iff the two maps have equal
length with pairwise-equal types and assignment counts; differing lengths give
`NonEqualTypes`; otherwise the pairs are scanned in canonical order and the
first mismatch decides the error — `NonEqualTypes` for a type mismatch,
`NonEqualAssignmentCount` for a count mismatch at a matching type. -/
theorem identity_transfer_spec (prev curr : OwnedRights) :
    (input_output_count_eq prev curr = .ok ↔
      (prev.length = curr.length ∧
        ∀ x ∈ prev.zip curr, x.1.1 = x.2.1 ∧ x.1.2.len = x.2.2.len)) ∧
    (prev.length ≠ curr.length →
      input_output_count_eq prev curr = .err .NonEqualTypes) ∧
    (∀ (f1 f2 : List (Nat × AssignmentVec)) (pt ct : Nat) (pa ca : AssignmentVec) r1 r2,
      prev = f1 ++ (pt, pa) :: r1 → curr = f2 ++ (ct, ca) :: r2 →
      f1.length = f2.length →
      (∀ x ∈ f1.zip f2, x.1.1 = x.2.1 ∧ x.1.2.len = x.2.2.len) →
      pt ≠ ct →
      input_output_count_eq prev curr = .err .NonEqualTypes) ∧
    (∀ (f1 f2 : List (Nat × AssignmentVec)) (t : Nat) (pa ca : AssignmentVec) r1 r2,
      prev = f1 ++ (t, pa) :: r1 → curr = f2 ++ (t, ca) :: r2 →
      f1.length = f2.length → r1.length = r2.length →
      (∀ x ∈ f1.zip f2, x.1.1 = x.2.1 ∧ x.1.2.len = x.2.2.len) →
      pa.len ≠ ca.len →
      input_output_count_eq prev curr = .err .NonEqualAssignmentCount) := by
  refine ⟨?_, ?_, ?_, ?_⟩
  · by_cases hl : prev.length = curr.length
    · simp only [input_output_count_eq, OwnedRights.as_inner, if_pos hl]
      rw [count_loop_ok_iff]
      simp [hl]
    · simp only [input_output_count_eq, OwnedRights.as_inner, if_neg hl]
      constructor
      · intro h; cases h
      · intro h; exact absurd h.1 hl
  · intro hne
    simp [input_output_count_eq, OwnedRights.as_inner, hne]
  · intro f1 f2 pt ct pa ca r1 r2 hprev hcurr hflen hagree hne
    subst hprev; subst hcurr
    by_cases hl : (f1 ++ (pt, pa) :: r1).length = (f2 ++ (ct, ca) :: r2).length
    · simp only [input_output_count_eq, OwnedRights.as_inner, if_pos hl]
      exact count_loop_type_err f1 f2 hflen hagree pt ct pa ca r1 r2 hne
    · simp only [input_output_count_eq, OwnedRights.as_inner]
      rw [if_neg hl]
  · intro f1 f2 t pa ca r1 r2 hprev hcurr hflen hrlen hagree hne
    subst hprev; subst hcurr
    have hl : (f1 ++ (t, pa) :: r1).length = (f2 ++ (t, ca) :: r2).length := by
      simp [hflen, hrlen]
    simp only [input_output_count_eq, OwnedRights.as_inner, if_pos hl]
    exact count_loop_count_err f1 f2 hflen hagree t pa ca r1 r2 hne

/-- C5 witness: the literal S5 scenario — type 0xA1 with three previous and
two current assignments — fails with `NonEqualAssignmentCount`. -/
theorem identity_transfer_spec_witness :
    input_output_count_eq
        [(STATE_TYPE_OWNERSHIP_RIGHT, AssignmentVec.discreteFiniteField
          [.revealed ⟨1, 0⟩, .revealed ⟨2, 0⟩, .revealed ⟨3, 0⟩])]
        [(STATE_TYPE_OWNERSHIP_RIGHT, AssignmentVec.discreteFiniteField
          [.revealed ⟨1, 0⟩, .revealed ⟨2, 0⟩])]
      = .err .NonEqualAssignmentCount := by
  exact (identity_transfer_spec _ _).2.2.2 [] [] STATE_TYPE_OWNERSHIP_RIGHT
    (AssignmentVec.discreteFiniteField [.revealed ⟨1, 0⟩, .revealed ⟨2, 0⟩, .revealed ⟨3, 0⟩])
    (AssignmentVec.discreteFiniteField [.revealed ⟨1, 0⟩, .revealed ⟨2, 0⟩])
    [] [] rfl rfl rfl rfl (by simp) (by decide)

/-- C9: `input_output_count_eq` inspects only the type sequence and per-type
counts — any two maps with equal length, pairwise-equal types and equal counts
succeed, with no condition on variant tags or state values. -/
theorem identity_transfer_ignores_state (prev curr : OwnedRights)
    (hlen : prev.length = curr.length)
    (hagree : ∀ x ∈ prev.zip curr, x.1.1 = x.2.1 ∧ x.1.2.len = x.2.2.len) :
    input_output_count_eq prev curr = .ok := by
  simp only [input_output_count_eq, OwnedRights.as_inner, if_pos hlen]
  exact (count_loop_ok_iff prev curr).mpr hagree

/-- C9 witness: a declarative vector against a value vector of the same length
passes `IdentityTransfer` even though the variant tags and states differ
(`RightsSplit` would reject this very input as `BrokenSchema`). -/
theorem identity_transfer_ignores_state_witness :
    input_output_count_eq
        [(1, AssignmentVec.declarative [(), ()])]
        [(1, AssignmentVec.discreteFiniteField [.revealed ⟨5, 0⟩, .confidential ⟨9, 9⟩])]
      = .ok :=
  identity_transfer_ignores_state _ _ rfl (by decide)

/-- C3: `validate_no_overflow` reports `ConfidentialState` when projection
fails (in particular whenever some value element is not revealed), succeeds on
every revealed sequence whose total fits in u64, and reports `ValueOverflow`
on every revealed sequence some initial segment of which sums past u64. -/
theorem no_overflow_spec (v : AssignmentVec) :
    (v.as_revealed_state_values = none →
      validate_no_overflow v = .err .ConfidentialState) ∧
    (∀ vs, v.as_revealed_state_values = some vs →
      (((vs.map ValueRevealed.value).sum < U64MOD → validate_no_overflow v = .ok) ∧
        (∀ k, U64MOD ≤ ((vs.map ValueRevealed.value).take k).sum →
          validate_no_overflow v = .err .ValueOverflow))) ∧
    (∀ xs : List ValueAssignment, (∃ a ∈ xs, a.as_revealed_state = none) →
      validate_no_overflow (.discreteFiniteField xs) = .err .ConfidentialState) := by
  refine ⟨?_, ?_, ?_⟩
  · intro h
    simp [validate_no_overflow, h]
  · intro vs hv
    constructor
    · intro hsum
      have hfold := try_fold_checked_some (vs.map ValueRevealed.value) 0 (by omega)
      simp [validate_no_overflow, hv, hfold]
    · intro k hk
      have hfold := try_fold_checked_none (vs.map ValueRevealed.value) 0
        (by decide) ⟨k, by omega⟩
      simp [validate_no_overflow, hv, hfold]
  · intro xs hex
    have hnone : revealed_values xs = none := (revealed_values_none_iff xs).mpr hex
    simp [validate_no_overflow, AssignmentVec.as_revealed_state_values, hnone]

/-- C3 witness: the literal S4 scenario — revealed values `u64::MAX` then `1`
— overflows at the second element. -/
theorem no_overflow_spec_witness :
    validate_no_overflow
        (.discreteFiniteField [.revealed ⟨2 ^ 64 - 1, 0⟩, .revealed ⟨1, 0⟩])
      = .err .ValueOverflow := by
  exact ((no_overflow_spec
      (.discreteFiniteField [.revealed ⟨2 ^ 64 - 1, 0⟩, .revealed ⟨1, 0⟩])).2.1
    [⟨2 ^ 64 - 1, 0⟩, ⟨1, 0⟩] (by decide)).2 2 (by decide)

/-- C2: on inputs whose intermediate u64 sums stay below `2^64`,
`fungible_issue` returns `ConfidentialState` whenever a previous or current
inflation-right element is not revealed, and otherwise equals the claimed
cascade — `Inflation` when `issued + future` differs from `allowed`, then
`Inflation` when the Pedersen tally of the current ownership commitments
against the previous ownership commitments plus `commit(issued, ONE_KEY)`
fails, and success otherwise. -/
theorem fungible_issue_spec (meta : Metadata) (prev curr : OwnedRights) :
    (((prev.assignments_by_type STATE_TYPE_INFLATION_RIGHT).as_revealed_state_values = none ∨
        (curr.assignments_by_type STATE_TYPE_INFLATION_RIGHT).as_revealed_state_values = none) →
      fungible_issue meta prev curr = .err .ConfidentialState) ∧
    (∀ pvs cvs,
      (prev.assignments_by_type STATE_TYPE_INFLATION_RIGHT).as_revealed_state_values
        = some pvs →
      (curr.assignments_by_type STATE_TYPE_INFLATION_RIGHT).as_revealed_state_values
        = some cvs →
      (meta.u64 FIELD_TYPE_ISSUED_SUPPLY).sum + (cvs.map ValueRevealed.value).sum < U64MOD →
      (pvs.map ValueRevealed.value).sum < U64MOD →
      fungible_issue meta prev curr =
        if (meta.u64 FIELD_TYPE_ISSUED_SUPPLY).sum + (cvs.map ValueRevealed.value).sum
            = (pvs.map ValueRevealed.value).sum then
          (if verify_commit_sum
              ((curr.assignments_by_type
                STATE_TYPE_OWNERSHIP_RIGHT).to_confidential_state_pedersen)
              ((prev.assignments_by_type
                  STATE_TYPE_OWNERSHIP_RIGHT).to_confidential_state_pedersen
                ++ [commit ((meta.u64 FIELD_TYPE_ISSUED_SUPPLY).sum) ONE_KEY]) then
            .ok
          else .err .Inflation)
        else .err .Inflation) := by
  constructor
  · intro hor
    rcases hor with h | h
    · simp [fungible_issue, h]
    · cases hp : (prev.assignments_by_type
          STATE_TYPE_INFLATION_RIGHT).as_revealed_state_values with
      | none => simp [fungible_issue, hp]
      | some pvs => simp [fungible_issue, hp, h]
  · intro pvs cvs hp hc h1 h2
    have e1 : wsum (meta.u64 FIELD_TYPE_ISSUED_SUPPLY)
        = (meta.u64 FIELD_TYPE_ISSUED_SUPPLY).sum :=
      wsum_eq_sum _ (by omega)
    have e2 : wsum (cvs.map ValueRevealed.value) = (cvs.map ValueRevealed.value).sum :=
      wsum_eq_sum _ (by omega)
    have e3 : wsum (pvs.map ValueRevealed.value) = (pvs.map ValueRevealed.value).sum :=
      wsum_eq_sum _ h2
    have e4 : wadd ((meta.u64 FIELD_TYPE_ISSUED_SUPPLY).sum) ((cvs.map ValueRevealed.value).sum)
        = (meta.u64 FIELD_TYPE_ISSUED_SUPPLY).sum + (cvs.map ValueRevealed.value).sum := by
      unfold wadd
      exact Nat.mod_eq_of_lt h1
    simp only [fungible_issue, hp, hc, e1, e2, e3, e4]

/-- C2 witness: the literal S1 scenario — allowed inflation 1000, future 900,
issued 100, ownership 100 committed with the issued-supply blinding — passes. -/
theorem fungible_issue_spec_witness :
    fungible_issue
        [(FIELD_TYPE_ISSUED_SUPPLY, [FieldValue.u64Val 100])]
        [(STATE_TYPE_INFLATION_RIGHT, .discreteFiniteField [.revealed ⟨1000, 7⟩])]
        [(STATE_TYPE_INFLATION_RIGHT, .discreteFiniteField [.revealed ⟨900, 7⟩]),
         (STATE_TYPE_OWNERSHIP_RIGHT, .discreteFiniteField [.revealed ⟨100, 1⟩])]
      = .ok := by
  have h := (fungible_issue_spec
      [(FIELD_TYPE_ISSUED_SUPPLY, [FieldValue.u64Val 100])]
      [(STATE_TYPE_INFLATION_RIGHT, .discreteFiniteField [.revealed ⟨1000, 7⟩])]
      [(STATE_TYPE_INFLATION_RIGHT, .discreteFiniteField [.revealed ⟨900, 7⟩]),
       (STATE_TYPE_OWNERSHIP_RIGHT, .discreteFiniteField [.revealed ⟨100, 1⟩])]).2
    [⟨1000, 7⟩] [⟨900, 7⟩] (by decide) (by decide) (by decide) (by decide)
  rw [h]
  decide

/-- C10 (amended): with no issued-supply metadata the issued amount is the
empty sum 0 — not an error — and `fungible_issue` reduces, on revealed
inflation rights with in-range sums, to requiring `future = allowed` and the
Pedersen tally against the previous ownership commitments with
`commit(0, ONE_KEY)` appended; the all-empty input therefore fails that tally
and returns `Inflation` (see the counterexample), not success. -/
theorem fungible_issue_no_supply_spec (meta : Metadata) (prev curr : OwnedRights)
    (hmeta : meta.u64 FIELD_TYPE_ISSUED_SUPPLY = []) :
    ∀ pvs cvs,
      (prev.assignments_by_type STATE_TYPE_INFLATION_RIGHT).as_revealed_state_values
        = some pvs →
      (curr.assignments_by_type STATE_TYPE_INFLATION_RIGHT).as_revealed_state_values
        = some cvs →
      (cvs.map ValueRevealed.value).sum < U64MOD →
      (pvs.map ValueRevealed.value).sum < U64MOD →
      fungible_issue meta prev curr =
        if (cvs.map ValueRevealed.value).sum = (pvs.map ValueRevealed.value).sum then
          (if verify_commit_sum
              ((curr.assignments_by_type
                STATE_TYPE_OWNERSHIP_RIGHT).to_confidential_state_pedersen)
              ((prev.assignments_by_type
                  STATE_TYPE_OWNERSHIP_RIGHT).to_confidential_state_pedersen
                ++ [commit 0 ONE_KEY]) then
            .ok
          else .err .Inflation)
        else .err .Inflation := by
  intro pvs cvs hp hc hf ha
  have e0 : wsum (meta.u64 FIELD_TYPE_ISSUED_SUPPLY) = 0 := by
    rw [hmeta]
    rfl
  have e2 : wsum (cvs.map ValueRevealed.value) = (cvs.map ValueRevealed.value).sum :=
    wsum_eq_sum _ hf
  have e3 : wsum (pvs.map ValueRevealed.value) = (pvs.map ValueRevealed.value).sum :=
    wsum_eq_sum _ ha
  have e4 : wadd 0 ((cvs.map ValueRevealed.value).sum) = (cvs.map ValueRevealed.value).sum := by
    unfold wadd
    rw [Nat.zero_add]
    exact Nat.mod_eq_of_lt hf
  simp only [fungible_issue, hp, hc, e0, e2, e3, e4]

/-- C10 witness: metadata without issued supply acts as `issued = 0` — here
future inflation 5 equals allowed 5 and the ownership tally balances
(`commit(0,2)` against `commit(0,1)` plus the appended `commit(0, ONE_KEY)`),
so the procedure succeeds rather than erroring on the missing field. -/
theorem fungible_issue_no_supply_witness :
    fungible_issue
        ([] : Metadata)
        [(STATE_TYPE_INFLATION_RIGHT, .discreteFiniteField [.revealed ⟨5, 3⟩]),
         (STATE_TYPE_OWNERSHIP_RIGHT, .discreteFiniteField [.revealed ⟨0, 1⟩])]
        [(STATE_TYPE_INFLATION_RIGHT, .discreteFiniteField [.revealed ⟨5, 4⟩]),
         (STATE_TYPE_OWNERSHIP_RIGHT, .discreteFiniteField [.revealed ⟨0, 2⟩])]
      = .ok := by
  have h := fungible_issue_no_supply_spec
      ([] : Metadata)
      [(STATE_TYPE_INFLATION_RIGHT, .discreteFiniteField [.revealed ⟨5, 3⟩]),
       (STATE_TYPE_OWNERSHIP_RIGHT, .discreteFiniteField [.revealed ⟨0, 1⟩])]
      [(STATE_TYPE_INFLATION_RIGHT, .discreteFiniteField [.revealed ⟨5, 4⟩]),
       (STATE_TYPE_OWNERSHIP_RIGHT, .discreteFiniteField [.revealed ⟨0, 2⟩])]
      rfl [⟨5, 3⟩] [⟨5, 4⟩] (by decide) (by decide) (by decide) (by decide)
  rw [h]
  decide
